import Mathlib

/-!
Shallow embedding of the `piper` dataframe-cleaning transforms
(`src/piper/piper.py`, eager `pl.DataFrame` variant) and of the
`polarspiper` variant (`src/polarspiper/polarspiper.py`), whose generic
functions also accept a lazy frame: a deferred plan that is only
executed at an explicit `collect` step.

A table is an ordered list of named, typed, nullable columns.  Machine
floating point values are modelled as exact rationals and datetimes as
abstract integers; the scalar primitives of the underlying dataframe
engine (strptime-style datetime parsing, integer parsing, float
parsing), which the specification treats as a black box, are supplied
by an `Engine` parameter, so every theorem holds for every engine.
Errors raised by the engine are modelled by `Except` with the error
kinds the Python code distinguishes (`InvalidOperationError`,
`ComputeError`, schema errors, missing columns); a strict cast failure
is an invalid-operation error and a strict datetime-parse failure is a
compute error, matching the polars exception taxonomy the source
catches.
-/

namespace PiperSpec

/-- Column data types used by the pipeline. -/
inductive DType
  | utf8
  | int64
  | float64
  | datetime
  | listFloat
  deriving DecidableEq

/-- The numeric target types `try_to_numeric` is invoked with. -/
inductive NDType
  | int64
  | float64
  deriving DecidableEq

def NDType.toDType : NDType → DType
  | NDType.int64 => DType.int64
  | NDType.float64 => DType.float64

/-- A cell value; floats are modelled as exact rationals and datetimes
as abstract integral timestamps. -/
inductive Value
  | null
  | str (s : String)
  | int (n : Int)
  | float (q : ℚ)
  | dt (t : Int)
  | floatList (xs : List ℚ)
  deriving DecidableEq

def Value.isNull : Value → Bool
  | Value.null => true
  | _ => false

/-- A value a well-formed `Utf8` column may hold. -/
def Value.strOrNull : Value → Bool
  | Value.null => true
  | Value.str _ => true
  | _ => false

/-- The error classes the Python code distinguishes:
`InvalidOperationError`, `ComputeError`, schema mismatches
(`SchemaError`, raised e.g. by a `.str` operation on a non-string
column), and missing columns (`ColumnNotFoundError`).  The source only
ever catches the first two. -/
inductive ErrKind
  | invalidOp
  | compute
  | schema
  | colNotFound
  deriving DecidableEq

/-- The scalar parsing primitives of the dataframe engine, consumed as
a black box: format-directed datetime parsing (`str.to_datetime` with
a `format=` argument), format-inferring datetime parsing
(`str.to_datetime()` with no format), and the string-to-integer and
string-to-float conversions performed by strict casts of a `Utf8`
column.  `none` means the string does not parse. -/
structure Engine where
  parseDT : String → String → Option Int
  parseDTInfer : String → Option Int
  parseInt : String → Option Int
  parseFloat : String → Option ℚ

structure Column where
  name : String
  dtype : DType
  values : List Value
  deriving DecidableEq

structure Table where
  columns : List Column
  deriving DecidableEq

/-- `str.replace_all(",", "")`: remove every comma. -/
def stripCommas (s : String) : String :=
  ⟨s.data.filter (fun ch => ch ≠ ',')⟩

/-- Substring test (`"_lat" in col` in Python). -/
def strContains (s pat : String) : Bool :=
  s.data.tails.any (fun t => pat.data.isPrefixOf t)

variable (E : Engine)

/-- `pl.col(c).str.to_datetime(format=fmt)` on one cell.  A parse
failure on a string is a `ComputeError`; applying a `.str` operation
to a non-string, non-null value is a schema error. -/
def toDatetimeVal (fmt : String) : Value → Except ErrKind Value
  | Value.null => Except.ok Value.null
  | Value.str s =>
    match E.parseDT fmt s with
    | some t => Except.ok (Value.dt t)
    | none => Except.error ErrKind.compute
  | _ => Except.error ErrKind.schema

/-- `pl.col(c).str.to_datetime()` (no format, inferred) on one cell. -/
def toDTInferVal : Value → Except ErrKind Value
  | Value.null => Except.ok Value.null
  | Value.str s =>
    match E.parseDTInfer s with
    | some t => Except.ok (Value.dt t)
    | none => Except.error ErrKind.compute
  | _ => Except.error ErrKind.schema

/-- `pl.col(c).str.replace_all(",", "").cast(dtype)` on one cell, for
`dtype` one of `pl.Int64`, `pl.Float64`.  A strict cast failure is an
`InvalidOperationError`. -/
def replCastVal (nd : NDType) : Value → Except ErrKind Value
  | Value.null => Except.ok Value.null
  | Value.str s =>
    match nd with
    | NDType.int64 =>
      match E.parseInt (stripCommas s) with
      | some n => Except.ok (Value.int n)
      | none => Except.error ErrKind.invalidOp
    | NDType.float64 =>
      match E.parseFloat (stripCommas s) with
      | some q => Except.ok (Value.float q)
      | none => Except.error ErrKind.invalidOp
  | _ => Except.error ErrKind.schema

/-- `pl.col(c).cast(pl.Float64)` on one cell: numeric and datetime
values cast through their physical representation, strings are parsed,
lists do not cast; failures are `InvalidOperationError`. -/
def castFloatVal : Value → Except ErrKind Value
  | Value.null => Except.ok Value.null
  | Value.int n => Except.ok (Value.float (n : ℚ))
  | Value.float q => Except.ok (Value.float q)
  | Value.dt t => Except.ok (Value.float (t : ℚ))
  | Value.str s =>
    match E.parseFloat s with
    | some q => Except.ok (Value.float q)
    | none => Except.error ErrKind.invalidOp
  | Value.floatList _ => Except.error ErrKind.invalidOp

/-- `pl.col(c) * 180 / 2**31` on one cell (the division by an integer
produces a 64-bit float column). -/
def mulDivVal : Value → Except ErrKind Value
  | Value.null => Except.ok Value.null
  | Value.int n => Except.ok (Value.float ((n : ℚ) * 180 / 2 ^ 31))
  | Value.float q => Except.ok (Value.float (q * 180 / 2 ^ 31))
  | _ => Except.error ErrKind.invalidOp

/-- `pl.col(c).str.split("|").cast(pl.List(pl.Float64))` on one cell. -/
def splitCastVal : Value → Except ErrKind Value
  | Value.null => Except.ok Value.null
  | Value.str s =>
    match (s.splitOn "|").mapM E.parseFloat with
    | some qs => Except.ok (Value.floatList qs)
    | none => Except.error ErrKind.invalidOp
  | _ => Except.error ErrKind.schema

/-- Error-propagating map over a list: apply `f` to every element,
stopping at (and returning) the first error. -/
def exMap {α β : Type} (f : α → Except ErrKind β) : List α → Except ErrKind (List β)
  | [] => Except.ok []
  | a :: l =>
    match f a with
    | Except.error e => Except.error e
    | Except.ok b =>
      match exMap f l with
      | Except.error e => Except.error e
      | Except.ok bs => Except.ok (b :: bs)

/-- `_df.height`: the common length of the columns (0 for a table with
no columns, as in polars). -/
def Table.height (df : Table) : Nat :=
  match df.columns with
  | [] => 0
  | c :: _ => c.values.length

/-- `_df[col].dtype`: dtype of the first column with the given name. -/
def Table.colDtype (df : Table) (n : String) : Option DType :=
  (df.columns.find? (fun c => c.name = n)).map Column.dtype

/-- `s.null_count()` for one column. -/
def Column.nullCount (c : Column) : Nat :=
  (c.values.filter Value.isNull).length

/-- `_df.with_columns(expr on column n)`: replace the column named `n`
in place (same position) by applying `f` to each of its cells, giving
the result dtype `d`; errors from any cell propagate, a missing column
is a column-not-found error. -/
def Table.withColumn (df : Table) (n : String) (d : DType)
    (f : Value → Except ErrKind Value) : Except ErrKind Table :=
  if df.columns.any (fun c => c.name = n) then
    match exMap (fun c =>
        if c.name = n then
          match exMap f c.values with
          | Except.ok vs => Except.ok (⟨c.name, d, vs⟩ : Column)
          | Except.error e => Except.error e
        else Except.ok c) df.columns with
    | Except.ok cols => Except.ok ⟨cols⟩
    | Except.error e => Except.error e
  else Except.error ErrKind.colNotFound

/-- `_df.with_columns(expr on pl.col(names))`: apply `f` to every cell
of every column whose name is in `names` (the call sites only pass
names of present columns). -/
def Table.withColumnsList (df : Table) (names : List String) (d : DType)
    (f : Value → Except ErrKind Value) : Except ErrKind Table :=
  match exMap (fun c =>
      if c.name ∈ names then
        match exMap f c.values with
        | Except.ok vs => Except.ok (⟨c.name, d, vs⟩ : Column)
        | Except.error e => Except.error e
      else Except.ok c) df.columns with
  | Except.ok cols => Except.ok ⟨cols⟩
  | Except.error e => Except.error e

/-- `_df[names]`: select the named columns, in the order given. -/
def Table.selectNames (df : Table) (names : List String) : Table :=
  ⟨names.filterMap (fun n => df.columns.find? (fun c => c.name = n))⟩

/-- Row `i` of the table (a `null` default outside a column's range,
which never occurs when the table has uniform column lengths). -/
def Table.row (df : Table) (i : Nat) : List Value :=
  df.columns.map (fun c => c.values.getD i Value.null)

/-- The rows of the table, in order. -/
def Table.rowsList (df : Table) : List (List Value) :=
  (List.range df.height).map df.row

/-- All the values of row `i` are null. -/
def Table.rowAllNull (df : Table) (i : Nat) : Bool :=
  df.columns.all (fun c => (c.values.getD i Value.null).isNull)

/-- All column lengths agree with the table height. -/
def Table.Uniform (df : Table) : Prop :=
  ∀ c ∈ df.columns, c.values.length = df.height

/-- Column names are pairwise distinct (polars enforces this). -/
def Table.NamesNodup (df : Table) : Prop :=
  (df.columns.map Column.name).Nodup

/-- Every `Utf8` column holds only strings and nulls. -/
def Table.Utf8Cols (df : Table) : Prop :=
  ∀ c ∈ df.columns, c.dtype = DType.utf8 → c.values.all Value.strOrNull

/-- Run a per-column-name step over a list of names, threading the
table through and propagating the first uncaught error, as the Python
`for col in _df.columns:` loops do. -/
def runSteps (f : Table → String → Except ErrKind Table) :
    List String → Table → Except ErrKind Table
  | [], df => Except.ok df
  | n :: rest, df =>
    match f df n with
    | Except.error e => Except.error e
    | Except.ok df' => runSteps f rest df'

/-- The three fixed datetime formats tried by `try_to_datetime`, in
order. -/
def fmtA : String := "%B %d, %Y, %I:%M %p"

def fmtB : String := "%Y-%m-%d %H:%M:%S"

def fmtC : String := "%Y-%m-%dT%H:%M:%S%.fZ"

def dtFormats : List String := [fmtA, fmtB, fmtC]

/-- `cols or ["timestamp", ...]`: Python `or` replaces both `None` and
the (falsy) empty list by the default list. -/
def orDefault (cols : Option (List String)) (d : List String) : List String :=
  match cols with
  | none => d
  | some l => if l.isEmpty then d else l

def timeDefaults : List String :=
  ["timestamp", "start_time", "created_at", "updated_at"]

def zoneDefaults : List String :=
  ["time_in_hr_zone_sec", "time_in_pwr_zone_sec"]

namespace Piper

/-- `Piper.drop_rows_that_are_all_null`:
`_df.filter(~pl.all_horizontal(pl.all().is_null()))`. -/
def drop_rows_that_are_all_null (df : Table) : Table :=
  ⟨df.columns.map (fun c =>
    ⟨c.name, c.dtype,
      ((List.range df.height).filter (fun i => !(df.rowAllNull i))).map
        (fun i => c.values.getD i Value.null)⟩)⟩

/-- `Piper.drop_columns_that_are_all_null`:
`_df[[s.name for s in _df if not (s.null_count() == _df.height)]]`. -/
def drop_columns_that_are_all_null (df : Table) : Table :=
  df.selectNames
    ((df.columns.filter (fun c => !(c.nullCount == df.height))).map Column.name)

/-- `Piper.semicircle_to_degrees`: scale every column whose name
contains `_lat` or `_lon` by `180 / 2**31`. -/
def semicircle_to_degrees (df : Table) : Except ErrKind Table :=
  df.withColumnsList
    ((df.columns.filter (fun c =>
        strContains c.name "_lat" || strContains c.name "_lon")).map Column.name)
    DType.float64 mulDivVal

/-- `Piper.convert_times_to_datetime`. -/
def convert_times_to_datetime (df : Table) (cols : Option (List String)) :
    Except ErrKind Table :=
  df.withColumnsList
    ((orDefault cols timeDefaults).filter
      (fun n => df.columns.any (fun c => c.name = n)))
    DType.datetime (toDTInferVal E)

/-- `Piper.cast_time_in_zone_string_to_list_of_float`. -/
def cast_time_in_zone_string_to_list_of_float (df : Table)
    (cols : Option (List String)) : Except ErrKind Table :=
  df.withColumnsList
    ((orDefault cols zoneDefaults).filter
      (fun n => df.columns.any (fun c => c.name = n)))
    DType.listFloat (splitCastVal E)

/-- The `for format in [...]` loop of `Piper.try_to_datetime`: on
success return `(new table, True)`; `InvalidOperationError` and
`ComputeError` fall through to the next format (leaving the table
untouched, since the assignment did not happen); other errors
propagate. -/
def tryFmts (df : Table) (col : String) : List String → Except ErrKind (Table × Bool)
  | [] => Except.ok (df, false)
  | fmt :: rest =>
    match df.withColumn col DType.datetime (toDatetimeVal E fmt) with
    | Except.ok df' => Except.ok (df', true)
    | Except.error ErrKind.invalidOp => tryFmts df col rest
    | Except.error ErrKind.compute => tryFmts df col rest
    | Except.error e => Except.error e

/-- `Piper.try_to_datetime`. -/
def try_to_datetime (df : Table) (col : String) : Except ErrKind (Table × Bool) :=
  tryFmts E df col dtFormats

/-- `Piper.try_to_numeric`. -/
def try_to_numeric (df : Table) (col : String) (nd : NDType) :
    Except ErrKind (Table × Bool) :=
  match df.withColumn col nd.toDType (replCastVal E nd) with
  | Except.ok df' => Except.ok (df', true)
  | Except.error ErrKind.invalidOp => Except.ok (df, false)
  | Except.error ErrKind.compute => Except.ok (df, false)
  | Except.error e => Except.error e

/-- One iteration of the `Piper.utf8_promotion` loop body for the
column named `n`. -/
def promoteStep (df : Table) (n : String) : Except ErrKind Table :=
  if df.colDtype n ≠ some DType.utf8 then Except.ok df
  else
    match try_to_datetime E df n with
    | Except.error e => Except.error e
    | Except.ok (df1, true) => Except.ok df1
    | Except.ok (df1, false) =>
      match try_to_numeric E df1 n NDType.int64 with
      | Except.error e => Except.error e
      | Except.ok (df2, true) => Except.ok df2
      | Except.ok (df2, false) =>
        match try_to_numeric E df2 n NDType.float64 with
        | Except.error e => Except.error e
        | Except.ok (df3, _) => Except.ok df3

/-- `Piper.utf8_promotion`: iterate over the (initial) column names;
the dtype test inside the loop reads the current table. -/
def utf8_promotion (df : Table) : Except ErrKind Table :=
  runSteps (promoteStep E) (df.columns.map Column.name) df

/-- One iteration of `Piper.try_convert_dtypes_to_float_if_possible`:
only `InvalidOperationError` is caught. -/
def floatStep (df : Table) (n : String) : Except ErrKind Table :=
  match df.withColumn n DType.float64 (castFloatVal E) with
  | Except.ok df' => Except.ok df'
  | Except.error ErrKind.invalidOp => Except.ok df
  | Except.error e => Except.error e

/-- `Piper.try_convert_dtypes_to_float_if_possible`. -/
def try_convert_dtypes_to_float_if_possible (df : Table) : Except ErrKind Table :=
  runSteps (floatStep E) (df.columns.map Column.name) df

end Piper

/-- The engine's sort primitive for the transposed null-count rows,
modelled as a black box carrying exactly the guarantees polars
documents for `DataFrame.sort` on one key with the default
`maintain_order=False`: the output is some permutation of the input
rows, non-decreasing in the sort key.  The relative order of rows with
equal keys is unspecified — the sort is not promised to be stable, so
every function satisfying this contract is a possible engine
behaviour. -/
structure SortPrim where
  sort : List (String × Nat) → List (String × Nat)
  sort_perm : ∀ l, (sort l).Perm l
  sort_sorted : ∀ l, (sort l).Pairwise (fun a b => a.2 ≤ b.2)

namespace PolarsPiper

/-- `PolarsPiper.sort_columns_by_null_count` (eager branch): transpose
the per-column null counts into `(name, count)` rows, sort by the
count column only (`sort("column_0")`), and select the names in that
order.  The engine's sort is the black-box primitive `S`, constrained
only by its documented contract. -/
def sort_columns_by_null_count (S : SortPrim) (df : Table) : Table :=
  df.selectNames
    ((S.sort (df.columns.map (fun c => (c.name, c.nullCount)))).map Prod.fst)

end PolarsPiper

/-- A pending lazy operation: the `with_columns` expressions the
`PolarsPiper` functions push onto a `pl.LazyFrame`. -/
inductive LOp
  | dtFmt (col : String) (fmt : String)
  | replCast (col : String) (nd : NDType)
  | inferDT (cols : List String)
  deriving DecidableEq

/-- A lazy frame: an initial table plus the deferred operations, run
only at `collect`. -/
structure LazyFrame where
  init : Table
  ops : List LOp
  deriving DecidableEq

def LazyFrame.push (lf : LazyFrame) (op : LOp) : LazyFrame :=
  ⟨lf.init, lf.ops ++ [op]⟩

/-- Execute one deferred operation eagerly. -/
def LOp.applyOp (op : LOp) (df : Table) : Except ErrKind Table :=
  match op with
  | LOp.dtFmt col fmt => df.withColumn col DType.datetime (toDatetimeVal E fmt)
  | LOp.replCast col nd => df.withColumn col nd.toDType (replCastVal E nd)
  | LOp.inferDT cols => df.withColumnsList cols DType.datetime (toDTInferVal E)

def runOps : List LOp → Table → Except ErrKind Table
  | [], df => Except.ok df
  | op :: rest, df =>
    match LOp.applyOp E op df with
    | Except.error e => Except.error e
    | Except.ok df' => runOps rest df'

/-- `lf.collect()`: realize the deferred plan; any conversion error
surfaces here. -/
def LazyFrame.collect (lf : LazyFrame) : Except ErrKind Table :=
  runOps E lf.ops lf.init

/-- `collect_schema()[n]` of the pending plan: the dtype the deferred
operations will give column `n`, resolved without executing. -/
def LazyFrame.dtypeOf (lf : LazyFrame) (n : String) : Option DType :=
  lf.ops.foldl (fun d op =>
    match op with
    | LOp.dtFmt c _ => if c = n then some DType.datetime else d
    | LOp.replCast c nd => if c = n then some nd.toDType else d
    | LOp.inferDT cs => if n ∈ cs then some DType.datetime else d)
    (lf.init.colDtype n)

namespace PolarsPiper

/-- `PolarsPiper.try_to_datetime` on a lazy frame: `with_columns` on a
lazy frame only records the expression and cannot raise, so the first
format is recorded and the function reports success immediately — the
`except` clauses are unreachable. -/
def try_to_datetime (lf : LazyFrame) (col : String) : LazyFrame × Bool :=
  match dtFormats with
  | [] => (lf, false)
  | fmt :: _ => (lf.push (LOp.dtFmt col fmt), true)

/-- `PolarsPiper.try_to_numeric` on a lazy frame: likewise always
reports success. -/
def try_to_numeric (lf : LazyFrame) (col : String) (nd : NDType) :
    LazyFrame × Bool :=
  (lf.push (LOp.replCast col nd), true)

/-- One iteration of the `PolarsPiper.utf8_promotion` loop body on a
lazy frame; the dtype test resolves the pending plan's schema. -/
def promoteStepL (lf : LazyFrame) (n : String) : LazyFrame :=
  if lf.dtypeOf n ≠ some DType.utf8 then lf
  else
    match try_to_datetime lf n with
    | (lf1, true) => lf1
    | (lf1, false) =>
      match try_to_numeric lf1 n NDType.int64 with
      | (lf2, true) => lf2
      | (lf2, false) => (try_to_numeric lf2 n NDType.float64).1

/-- `PolarsPiper.utf8_promotion` on a lazy frame: the loop iterates
over the schema's column names (the pending operations neither add nor
remove columns, so these are the initial table's names). -/
def utf8_promotion (lf : LazyFrame) : LazyFrame :=
  (lf.init.columns.map Column.name).foldl promoteStepL lf

/-- `PolarsPiper.convert_times_to_datetime` on a lazy frame. -/
def convert_times_to_datetime (lf : LazyFrame) (cols : Option (List String)) :
    LazyFrame :=
  lf.push (LOp.inferDT
    ((orDefault cols timeDefaults).filter
      (fun n => lf.init.columns.any (fun c => c.name = n))))

end PolarsPiper

instance {ε α : Type} [DecidableEq ε] [DecidableEq α] : DecidableEq (Except ε α) :=
  fun a b =>
    match a, b with
    | Except.ok x, Except.ok y =>
      if h : x = y then isTrue (by rw [h]) else isFalse (by simp [h])
    | Except.error e, Except.error e' =>
      if h : e = e' then isTrue (by rw [h]) else isFalse (by simp [h])
    | Except.ok _, Except.error _ => isFalse (by simp)
    | Except.error _, Except.ok _ => isFalse (by simp)

instance (df : Table) : Decidable df.NamesNodup :=
  inferInstanceAs (Decidable (df.columns.map Column.name).Nodup)

instance (df : Table) : Decidable df.Utf8Cols :=
  inferInstanceAs (Decidable (∀ c ∈ df.columns,
    c.dtype = DType.utf8 → c.values.all Value.strOrNull))

instance (df : Table) : Decidable df.Uniform :=
  inferInstanceAs (Decidable (∀ c ∈ df.columns, c.values.length = df.height))

/-- Digit value of a character, if it is a decimal digit. -/
def digitVal (ch : Char) : Option Nat :=
  if '0' ≤ ch ∧ ch ≤ '9' then some (ch.toNat - '0'.toNat) else none

/-- Read a nonempty all-digit character list as a natural number. -/
def natOfDigits (cs : List Char) (acc : Nat) : Option Nat :=
  match cs with
  | [] => some acc
  | ch :: rest =>
    match digitVal ch with
    | some d => natOfDigits rest (acc * 10 + d)
    | none => none

/-- Parse an optionally negated decimal integer (a simple concrete
stand-in for the engine's integer parser, used only to evaluate the
development on explicit inputs). -/
def parseIntE0 (s : String) : Option Int :=
  match s.data with
  | [] => none
  | '-' :: rest =>
    match rest with
    | [] => none
    | _ => (natOfDigits rest 0).map (fun n => -(n : Int))
  | cs => (natOfDigits cs 0).map (fun n => (n : Int))

/-- A concrete sample engine used to evaluate the development on
explicit inputs: integers parse as decimal digits, floats are the
integral strings, and exactly one concrete datetime string parses
(under the second format). -/
def E0 : Engine where
  parseDT := fun fmt s =>
    if fmt == fmtB && s == "2023-01-01 10:00:00" then some 1672567200 else none
  parseDTInfer := fun _ => none
  parseInt := fun s => parseIntE0 s
  parseFloat := fun s => (parseIntE0 s).map (fun n => (n : ℚ))

/-! ### Infrastructure lemmas -/

theorem exMap_ok_of_id {α : Type} {g : α → Except ErrKind α} :
    ∀ {l : List α}, (∀ a ∈ l, g a = Except.ok a) → exMap g l = Except.ok l := by
  intro l
  induction l with
  | nil => intro _; rfl
  | cons a l ih =>
    intro h
    have ha := h a (by simp)
    have hl := ih (fun x hx => h x (by simp [hx]))
    simp [exMap, ha, hl]

theorem exMap_append_ok {α : Type} {g : α → Except ErrKind α} {l₁ l₂ : List α}
    (h : ∀ a ∈ l₁, g a = Except.ok a) :
    exMap g (l₁ ++ l₂) =
      match exMap g l₂ with
      | Except.ok l₂' => Except.ok (l₁ ++ l₂')
      | Except.error e => Except.error e := by
  induction l₁ with
  | nil =>
    simp only [List.nil_append]
    cases exMap g l₂ <;> rfl
  | cons a l ih =>
    have ha := h a (by simp)
    have ih' := ih (fun x hx => h x (by simp [hx]))
    cases h₂ : exMap g l₂ with
    | error e =>
      rw [h₂] at ih'
      simp [List.cons_append, exMap, ha, ih']
    | ok l₂' =>
      rw [h₂] at ih'
      simp [List.cons_append, exMap, ha, ih']

theorem exMap_eq_map {α β : Type} (f : α → Except ErrKind β) (g : α → β) :
    ∀ {l : List α}, (∀ a ∈ l, f a = Except.ok (g a)) →
      exMap f l = Except.ok (l.map g) := by
  intro l
  induction l with
  | nil => intro _; rfl
  | cons a l ih =>
    intro h
    have ha := h a (by simp)
    have hl := ih (fun x hx => h x (by simp [hx]))
    simp [exMap, ha, hl]

theorem exMap_ok_forall₂ {α β : Type} {f : α → Except ErrKind β} :
    ∀ {l : List α} {l' : List β}, exMap f l = Except.ok l' →
      List.Forall₂ (fun a b => f a = Except.ok b) l l' := by
  intro l
  induction l with
  | nil =>
    intro l' h
    simp only [exMap] at h
    cases h
    exact List.Forall₂.nil
  | cons a l ih =>
    intro l' h
    simp only [exMap] at h
    cases hfa : f a with
    | error e => rw [hfa] at h; cases h
    | ok b =>
      rw [hfa] at h
      cases hrest : exMap f l with
      | error e => rw [hrest] at h; cases h
      | ok bs =>
        rw [hrest] at h
        cases h
        exact List.Forall₂.cons hfa (ih hrest)

/-- A strict datetime parse over a string-or-null column either
succeeds on every cell or fails with a `ComputeError`. -/
theorem exMap_toDatetimeVal (fmt : String) :
    ∀ {vs : List Value}, vs.all Value.strOrNull →
      (∃ ws, exMap (toDatetimeVal E fmt) vs = Except.ok ws) ∨
       exMap (toDatetimeVal E fmt) vs = Except.error ErrKind.compute := by
  intro vs
  induction vs with
  | nil => intro _; exact Or.inl ⟨[], rfl⟩
  | cons v vs ih =>
    intro h
    simp only [List.all_cons, Bool.and_eq_true] at h
    have hv : (toDatetimeVal E fmt v = Except.error ErrKind.compute) ∨
        ∃ w, toDatetimeVal E fmt v = Except.ok w := by
      cases v <;> simp_all [Value.strOrNull, toDatetimeVal]
      case str s => cases E.parseDT fmt s <;> simp
    rcases hv with hv | ⟨w, hw⟩
    · exact Or.inr (by simp [exMap, hv])
    · rcases ih h.2 with ⟨ws, hws⟩ | hbad
      · exact Or.inl ⟨w :: ws, by simp [exMap, hw, hws]⟩
      · exact Or.inr (by simp [exMap, hw, hbad])

/-- A comma-stripping numeric cast over a string-or-null column either
succeeds on every cell or fails with an `InvalidOperationError`. -/
theorem exMap_replCastVal (nd : NDType) :
    ∀ {vs : List Value}, vs.all Value.strOrNull →
      (∃ ws, exMap (replCastVal E nd) vs = Except.ok ws) ∨
       exMap (replCastVal E nd) vs = Except.error ErrKind.invalidOp := by
  intro vs
  induction vs with
  | nil => intro _; exact Or.inl ⟨[], rfl⟩
  | cons v vs ih =>
    intro h
    simp only [List.all_cons, Bool.and_eq_true] at h
    have hv : (replCastVal E nd v = Except.error ErrKind.invalidOp) ∨
        ∃ w, replCastVal E nd v = Except.ok w := by
      cases v <;> simp_all [Value.strOrNull, replCastVal]
      case str s =>
        cases nd <;> simp only
        · cases E.parseInt (stripCommas s) <;> simp
        · cases E.parseFloat (stripCommas s) <;> simp
    rcases hv with hv | ⟨w, hw⟩
    · exact Or.inr (by simp [exMap, hv])
    · rcases ih h.2 with ⟨ws, hws⟩ | hbad
      · exact Or.inl ⟨w :: ws, by simp [exMap, hw, hws]⟩
      · exact Or.inr (by simp [exMap, hw, hbad])

/-- A plain cast to `Float64` either succeeds on every cell or fails
with an `InvalidOperationError`, whatever the cells hold. -/
theorem exMap_castFloatVal :
    ∀ (vs : List Value),
      (∃ ws, exMap (castFloatVal E) vs = Except.ok ws) ∨
       exMap (castFloatVal E) vs = Except.error ErrKind.invalidOp := by
  intro vs
  induction vs with
  | nil => exact Or.inl ⟨[], rfl⟩
  | cons v vs ih =>
    have hv : (castFloatVal E v = Except.error ErrKind.invalidOp) ∨
        ∃ w, castFloatVal E v = Except.ok w := by
      cases v <;> simp [castFloatVal]
      case str s => cases E.parseFloat s <;> simp
    rcases hv with hv | ⟨w, hw⟩
    · exact Or.inr (by simp [exMap, hv])
    · rcases ih with ⟨ws, hws⟩ | hbad
      · exact Or.inl ⟨w :: ws, by simp [exMap, hw, hws]⟩
      · exact Or.inr (by simp [exMap, hw, hbad])

/-- Decompose `withColumn` at the unique column bearing the target
name: the other columns pass through untouched. -/
theorem withColumn_split (d : DType) (f : Value → Except ErrKind Value)
    {pre post : List Column} {c : Column}
    (hpre : c.name ∉ pre.map Column.name) (hpost : c.name ∉ post.map Column.name) :
    Table.withColumn ⟨pre ++ c :: post⟩ c.name d f =
      match exMap f c.values with
      | Except.ok vs => Except.ok ⟨pre ++ (⟨c.name, d, vs⟩ : Column) :: post⟩
      | Except.error e => Except.error e := by
  have hany : (pre ++ c :: post).any (fun x => x.name = c.name) = true := by
    simp
  rw [Table.withColumn]
  simp only [hany, if_pos]
  have hpre' : ∀ x ∈ pre, (if x.name = c.name then
      match exMap f x.values with
      | Except.ok vs => Except.ok (⟨x.name, d, vs⟩ : Column)
      | Except.error e => Except.error e
      else Except.ok x) = Except.ok x := by
    intro x hx
    have : ¬(x.name = c.name) := by
      intro heq
      exact hpre (by rw [← heq]; exact List.mem_map_of_mem Column.name hx)
    simp [this]
  have hpost' : ∀ x ∈ post, (if x.name = c.name then
      match exMap f x.values with
      | Except.ok vs => Except.ok (⟨x.name, d, vs⟩ : Column)
      | Except.error e => Except.error e
      else Except.ok x) = Except.ok x := by
    intro x hx
    have : ¬(x.name = c.name) := by
      intro heq
      exact hpost (by rw [← heq]; exact List.mem_map_of_mem Column.name hx)
    simp [this]
  rw [exMap_append_ok hpre']
  cases hc : exMap f c.values with
  | error e =>
    simp [exMap, hc]
  | ok vs =>
    simp [exMap, hc, exMap_ok_of_id hpost']

/-- `find?` over a column list whose earlier columns all miss the
target name finds the marked column. -/
theorem find?_name_split {pre : List Column} {c : Column} (post : List Column)
    (hpre : c.name ∉ pre.map Column.name) :
    (pre ++ c :: post).find? (fun x => x.name = c.name) = some c := by
  rw [List.find?_append]
  have hnone : pre.find? (fun x => x.name = c.name) = none := by
    rw [List.find?_eq_none]
    intro x hx
    simp only [decide_eq_true_eq]
    intro heq
    exact hpre (by rw [← heq]; exact List.mem_map_of_mem Column.name hx)
  rw [hnone]
  simp [List.find?]

/-- Running a per-name step that independently rewrites the named
column (by `g`) over a list of pairwise-distinct names rewrites every
column independently. -/
theorem runSteps_indep (step : Table → String → Except ErrKind Table)
    (g : Column → Column) (P : Column → Prop)
    (hg : ∀ c, (g c).name = c.name)
    (hstep : ∀ pre c post, P c →
        c.name ∉ pre.map Column.name → c.name ∉ post.map Column.name →
        step ⟨pre ++ c :: post⟩ c.name = Except.ok ⟨pre ++ g c :: post⟩) :
    ∀ (todo pre : List Column), (∀ c ∈ todo, P c) →
      ((pre ++ todo).map Column.name).Nodup →
      runSteps step (todo.map Column.name) ⟨pre ++ todo⟩ =
        Except.ok ⟨pre ++ todo.map g⟩ := by
  intro todo
  induction todo with
  | nil => intro pre _ _; simp [runSteps]
  | cons c todo ih =>
    intro pre hP hnd
    have hnd' := hnd
    rw [List.map_append, List.nodup_append] at hnd'
    obtain ⟨-, hnd₂, hdisj⟩ := hnd'
    have hnotpre : c.name ∉ pre.map Column.name := by
      intro hmem
      exact hdisj hmem (by simp)
    have hnottodo : c.name ∉ todo.map Column.name := by
      simp only [List.map_cons, List.nodup_cons] at hnd₂
      exact hnd₂.1
    have hs := hstep pre c todo (hP c (by simp)) hnotpre hnottodo
    simp only [List.map_cons, runSteps, hs]
    have hnames : ((pre ++ [g c]) ++ todo).map Column.name =
        (pre ++ c :: todo).map Column.name := by
      simp [hg]
    have hres := ih (pre ++ [g c]) (fun x hx => hP x (by simp [hx]))
      (by rw [hnames]; exact hnd)
    rw [List.append_assoc] at hres
    simp only [List.singleton_append] at hres
    rw [hres]
    simp

/-- The per-column meaning of one `utf8_promotion` loop iteration on a
string column: try the three datetime formats, then the comma-stripped
integer cast, then the comma-stripped float cast, stopping at the
first attempt that converts every cell; if every attempt fails the
column is unchanged. -/
def promoteColumn (c : Column) : Column :=
  match exMap (toDatetimeVal E fmtA) c.values with
  | Except.ok vs => ⟨c.name, DType.datetime, vs⟩
  | Except.error _ =>
    match exMap (toDatetimeVal E fmtB) c.values with
    | Except.ok vs => ⟨c.name, DType.datetime, vs⟩
    | Except.error _ =>
      match exMap (toDatetimeVal E fmtC) c.values with
      | Except.ok vs => ⟨c.name, DType.datetime, vs⟩
      | Except.error _ =>
        match exMap (replCastVal E NDType.int64) c.values with
        | Except.ok vs => ⟨c.name, DType.int64, vs⟩
        | Except.error _ =>
          match exMap (replCastVal E NDType.float64) c.values with
          | Except.ok vs => ⟨c.name, DType.float64, vs⟩
          | Except.error _ => c

theorem promoteColumn_name (c : Column) : (promoteColumn E c).name = c.name := by
  rw [promoteColumn]
  cases exMap (toDatetimeVal E fmtA) c.values <;>
    cases exMap (toDatetimeVal E fmtB) c.values <;>
      cases exMap (toDatetimeVal E fmtC) c.values <;>
        cases exMap (replCastVal E NDType.int64) c.values <;>
          cases exMap (replCastVal E NDType.float64) c.values <;> rfl

/-- The per-column meaning of the float-coercion sweep: replace the
column by its 64-bit-float cast when every cell casts, otherwise keep
it unchanged. -/
def castColFloat (c : Column) : Column :=
  match exMap (castFloatVal E) c.values with
  | Except.ok vs => ⟨c.name, DType.float64, vs⟩
  | Except.error _ => c

theorem castColFloat_name (c : Column) : (castColFloat E c).name = c.name := by
  rw [castColFloat]
  cases exMap (castFloatVal E) c.values <;> rfl

/-- One `utf8_promotion` iteration, applied at the unique column with
the target name, rewrites exactly that column by `promoteColumn` (or
skips it when it is not a string column). -/
theorem promoteStep_split {pre post : List Column} {c : Column}
    (hP : c.dtype = DType.utf8 → c.values.all Value.strOrNull)
    (hpre : c.name ∉ pre.map Column.name) (hpost : c.name ∉ post.map Column.name) :
    Piper.promoteStep E ⟨pre ++ c :: post⟩ c.name =
      Except.ok ⟨pre ++ (if c.dtype = DType.utf8 then promoteColumn E c else c) :: post⟩ := by
  have hcol : Table.colDtype ⟨pre ++ c :: post⟩ c.name = some c.dtype := by
    rw [Table.colDtype, find?_name_split post hpre, Option.map_some']
  by_cases hdt : c.dtype = DType.utf8
  · have hvals := hP hdt
    rcases exMap_toDatetimeVal E fmtA hvals with ⟨ws, hA⟩ | hA
    · simp [Piper.promoteStep, hcol, hdt, Piper.try_to_datetime, dtFormats,
        Piper.tryFmts, withColumn_split DType.datetime (toDatetimeVal E fmtA) hpre hpost,
        hA, promoteColumn]
    · rcases exMap_toDatetimeVal E fmtB hvals with ⟨ws, hB⟩ | hB
      · simp [Piper.promoteStep, hcol, hdt, Piper.try_to_datetime, dtFormats,
          Piper.tryFmts, withColumn_split DType.datetime (toDatetimeVal E fmtA) hpre hpost,
          withColumn_split DType.datetime (toDatetimeVal E fmtB) hpre hpost,
          hA, hB, promoteColumn]
      · rcases exMap_toDatetimeVal E fmtC hvals with ⟨ws, hC⟩ | hC
        · simp [Piper.promoteStep, hcol, hdt, Piper.try_to_datetime, dtFormats,
            Piper.tryFmts, withColumn_split DType.datetime (toDatetimeVal E fmtA) hpre hpost,
            withColumn_split DType.datetime (toDatetimeVal E fmtB) hpre hpost,
            withColumn_split DType.datetime (toDatetimeVal E fmtC) hpre hpost,
            hA, hB, hC, promoteColumn]
        · rcases exMap_replCastVal E NDType.int64 hvals with ⟨ws, hI⟩ | hI
          · simp [Piper.promoteStep, hcol, hdt, Piper.try_to_datetime, dtFormats,
              Piper.tryFmts, Piper.try_to_numeric, NDType.toDType,
              withColumn_split DType.datetime (toDatetimeVal E fmtA) hpre hpost,
              withColumn_split DType.datetime (toDatetimeVal E fmtB) hpre hpost,
              withColumn_split DType.datetime (toDatetimeVal E fmtC) hpre hpost,
              withColumn_split DType.int64 (replCastVal E NDType.int64) hpre hpost,
              hA, hB, hC, hI, promoteColumn]
          · rcases exMap_replCastVal E NDType.float64 hvals with ⟨ws, hF⟩ | hF
            · simp [Piper.promoteStep, hcol, hdt, Piper.try_to_datetime, dtFormats,
                Piper.tryFmts, Piper.try_to_numeric, NDType.toDType,
                withColumn_split DType.datetime (toDatetimeVal E fmtA) hpre hpost,
                withColumn_split DType.datetime (toDatetimeVal E fmtB) hpre hpost,
                withColumn_split DType.datetime (toDatetimeVal E fmtC) hpre hpost,
                withColumn_split DType.int64 (replCastVal E NDType.int64) hpre hpost,
                withColumn_split DType.float64 (replCastVal E NDType.float64) hpre hpost,
                hA, hB, hC, hI, hF, promoteColumn]
            · simp [Piper.promoteStep, hcol, hdt, Piper.try_to_datetime, dtFormats,
                Piper.tryFmts, Piper.try_to_numeric, NDType.toDType,
                withColumn_split DType.datetime (toDatetimeVal E fmtA) hpre hpost,
                withColumn_split DType.datetime (toDatetimeVal E fmtB) hpre hpost,
                withColumn_split DType.datetime (toDatetimeVal E fmtC) hpre hpost,
                withColumn_split DType.int64 (replCastVal E NDType.int64) hpre hpost,
                withColumn_split DType.float64 (replCastVal E NDType.float64) hpre hpost,
                hA, hB, hC, hI, hF, promoteColumn]
  · simp [Piper.promoteStep, hcol, hdt]

/-- One float-sweep iteration, applied at the unique column with the
target name, rewrites exactly that column by `castColFloat`; the
invalid-operation failure of an uncastable column is swallowed. -/
theorem floatStep_split {pre post : List Column} {c : Column}
    (hpre : c.name ∉ pre.map Column.name) (hpost : c.name ∉ post.map Column.name) :
    Piper.floatStep E ⟨pre ++ c :: post⟩ c.name =
      Except.ok ⟨pre ++ castColFloat E c :: post⟩ := by
  rcases exMap_castFloatVal E c.values with ⟨ws, hw⟩ | hbad
  · simp [Piper.floatStep,
      withColumn_split DType.float64 (castFloatVal E) hpre hpost, hw, castColFloat]
  · simp [Piper.floatStep,
      withColumn_split DType.float64 (castFloatVal E) hpre hpost, hbad, castColFloat]

/-! ### Claim theorems -/

/-- C4: for every table (distinct column names, string columns holding
strings or nulls), `utf8_promotion` leaves every non-string column
untouched, and converts each string column by the first success of:
the three fixed datetime formats in order (a format succeeds only if
every cell parses), then the comma-stripped 64-bit integer cast, then
the comma-stripped 64-bit float cast; if all attempts fail the column
stays unchanged. -/
theorem utf8_promotion_per_column (df : Table)
    (hN : df.NamesNodup) (hU : df.Utf8Cols) :
    Piper.utf8_promotion E df =
      Except.ok ⟨df.columns.map (fun c =>
        if c.dtype = DType.utf8 then promoteColumn E c else c)⟩ := by
  have h := runSteps_indep (Piper.promoteStep E)
    (fun c => if c.dtype = DType.utf8 then promoteColumn E c else c)
    (fun c => c.dtype = DType.utf8 → c.values.all Value.strOrNull)
    (fun c => by
      by_cases hdt : c.dtype = DType.utf8 <;> simp [hdt, promoteColumn_name])
    (fun pre c post hP hpre hpost => promoteStep_split E hP hpre hpost)
    df.columns [] (fun c hc => hU c hc) (by simpa using hN)
  simpa [Piper.utf8_promotion] using h

def W4 : Table :=
  ⟨[⟨"n", DType.utf8, [Value.str "1", Value.str "2,5"]⟩,
    ⟨"k", DType.int64, [Value.int 7]⟩]⟩

theorem utf8_promotion_per_column_witness :
    W4.NamesNodup ∧ W4.Utf8Cols ∧
      Piper.utf8_promotion E0 W4 =
        Except.ok ⟨[⟨"n", DType.int64, [Value.int 1, Value.int 25]⟩,
          ⟨"k", DType.int64, [Value.int 7]⟩]⟩ :=
  ⟨by decide, by decide, by
    rw [utf8_promotion_per_column E0 W4 (by decide) (by decide)]; decide⟩

/-- C3: for every table (distinct column names),
`try_convert_dtypes_to_float_if_possible` attempts, independently for
each column regardless of its current type, a cast to 64-bit float;
a column whose cast fails is left unchanged, every cast failure is
swallowed (the result is `ok`, never an error), and a successful cast
silently replaces the column. -/
theorem try_convert_float_sweep (df : Table) (hN : df.NamesNodup) :
    Piper.try_convert_dtypes_to_float_if_possible E df =
      Except.ok ⟨df.columns.map (castColFloat E)⟩ := by
  have h := runSteps_indep (Piper.floatStep E) (castColFloat E) (fun _ => True)
    (fun c => castColFloat_name E c)
    (fun pre c post _ hpre hpost => floatStep_split E hpre hpost)
    df.columns [] (fun _ _ => trivial) (by simpa using hN)
  simpa [Piper.try_convert_dtypes_to_float_if_possible] using h

def W3 : Table :=
  ⟨[⟨"a", DType.utf8, [Value.str "abc"]⟩,
    ⟨"b", DType.int64, [Value.int 3, Value.null]⟩]⟩

theorem try_convert_float_sweep_witness :
    W3.NamesNodup ∧
      Piper.try_convert_dtypes_to_float_if_possible E0 W3 =
        Except.ok ⟨[⟨"a", DType.utf8, [Value.str "abc"]⟩,
          ⟨"b", DType.float64, [Value.float 3, Value.null]⟩]⟩ :=
  ⟨by decide, by rw [try_convert_float_sweep E0 W3 (by decide)]; decide⟩

/-- `df'` is `df` with the column named `n` replaced in place by a
column of dtype `d` and every other column untouched. -/
def ReplacedWith (df df' : Table) (n : String) (d : DType) : Prop :=
  List.Forall₂ (fun c c' =>
    (c.name ≠ n → c' = c) ∧ (c.name = n → c'.name = c.name ∧ c'.dtype = d))
    df.columns df'.columns

theorem withColumn_ok_replaced {df df' : Table} {n : String} {d : DType}
    {f : Value → Except ErrKind Value}
    (h : Table.withColumn df n d f = Except.ok df') : ReplacedWith df df' n d := by
  rw [Table.withColumn] at h
  by_cases hany : df.columns.any (fun c => c.name = n) = true
  · rw [if_pos hany] at h
    cases hmap : exMap (fun c =>
        if c.name = n then
          match exMap f c.values with
          | Except.ok vs => Except.ok (⟨c.name, d, vs⟩ : Column)
          | Except.error e => Except.error e
        else Except.ok c) df.columns with
    | error e => rw [hmap] at h; cases h
    | ok cols =>
      rw [hmap] at h
      cases h
      refine (exMap_ok_forall₂ hmap).imp ?_
      intro c c' hcc
      by_cases hn : c.name = n
      · rw [if_pos hn] at hcc
        cases hvs : exMap f c.values with
        | error e => rw [hvs] at hcc; cases hcc
        | ok vs =>
          rw [hvs] at hcc
          cases hcc
          exact ⟨fun hne => absurd hn hne, fun _ => ⟨rfl, rfl⟩⟩
      · rw [if_neg hn] at hcc
        cases hcc
        exact ⟨fun _ => rfl, fun heq => absurd heq hn⟩
  · rw [if_neg hany] at h
    cases h

theorem tryFmts_cases (col : String) :
    ∀ (fmts : List String) (df : Table),
      (Piper.tryFmts E df col fmts ≠ Except.error ErrKind.compute ∧
       Piper.tryFmts E df col fmts ≠ Except.error ErrKind.invalidOp) ∧
      (∀ df', Piper.tryFmts E df col fmts = Except.ok (df', false) → df' = df) ∧
      (∀ df', Piper.tryFmts E df col fmts = Except.ok (df', true) →
        ReplacedWith df df' col DType.datetime) := by
  intro fmts
  induction fmts with
  | nil =>
    intro df
    refine ⟨⟨by simp [Piper.tryFmts], by simp [Piper.tryFmts]⟩, ?_, ?_⟩
    · intro df' h
      simp only [Piper.tryFmts, Except.ok.injEq, Prod.mk.injEq] at h
      exact h.1.symm
    · intro df' h
      simp [Piper.tryFmts] at h
  | cons fmt rest ih =>
    intro df
    simp only [Piper.tryFmts]
    cases hw : df.withColumn col DType.datetime (toDatetimeVal E fmt) with
    | ok t =>
      refine ⟨⟨by simp, by simp⟩, ?_, ?_⟩
      · intro df' h
        simp at h
      · intro df' h
        simp only [Except.ok.injEq, Prod.mk.injEq] at h
        rw [← h.1]
        exact withColumn_ok_replaced hw
    | error e =>
      cases e with
      | invalidOp => exact ih df
      | compute => exact ih df
      | schema => exact ⟨⟨by simp, by simp⟩, by simp, by simp⟩
      | colNotFound => exact ⟨⟨by simp, by simp⟩, by simp, by simp⟩

/-- C5: `try_to_datetime` and `try_to_numeric` obey the
`(table, success)` contract: an `InvalidOperationError` or a
`ComputeError` raised by the conversion is never surfaced; a returned
`False` leaves the table exactly as it was; a returned `True` means
the named column was replaced in place with the converted type and
everything else is untouched. -/
theorem try_to_conversion_contract (df : Table) (col : String) (nd : NDType) :
    (Piper.try_to_numeric E df col nd ≠ Except.error ErrKind.compute ∧
     Piper.try_to_numeric E df col nd ≠ Except.error ErrKind.invalidOp ∧
     Piper.try_to_datetime E df col ≠ Except.error ErrKind.compute ∧
     Piper.try_to_datetime E df col ≠ Except.error ErrKind.invalidOp) ∧
    (∀ df', Piper.try_to_numeric E df col nd = Except.ok (df', false) → df' = df) ∧
    (∀ df', Piper.try_to_numeric E df col nd = Except.ok (df', true) →
      ReplacedWith df df' col nd.toDType) ∧
    (∀ df', Piper.try_to_datetime E df col = Except.ok (df', false) → df' = df) ∧
    (∀ df', Piper.try_to_datetime E df col = Except.ok (df', true) →
      ReplacedWith df df' col DType.datetime) := by
  have hdt := tryFmts_cases E col dtFormats df
  have hnum :
      (Piper.try_to_numeric E df col nd ≠ Except.error ErrKind.compute ∧
       Piper.try_to_numeric E df col nd ≠ Except.error ErrKind.invalidOp) ∧
      (∀ df', Piper.try_to_numeric E df col nd = Except.ok (df', false) → df' = df) ∧
      (∀ df', Piper.try_to_numeric E df col nd = Except.ok (df', true) →
        ReplacedWith df df' col nd.toDType) := by
    simp only [Piper.try_to_numeric]
    cases hw : df.withColumn col nd.toDType (replCastVal E nd) with
    | ok t =>
      refine ⟨⟨by simp, by simp⟩, ?_, ?_⟩
      · intro df' h
        simp at h
      · intro df' h
        simp only [Except.ok.injEq, Prod.mk.injEq] at h
        rw [← h.1]
        exact withColumn_ok_replaced hw
    | error e =>
      cases e with
      | invalidOp =>
        refine ⟨⟨by simp, by simp⟩, ?_, ?_⟩
        · intro df' h
          simp only [Except.ok.injEq, Prod.mk.injEq] at h
          exact h.1.symm
        · intro df' h
          simp at h
      | compute =>
        refine ⟨⟨by simp, by simp⟩, ?_, ?_⟩
        · intro df' h
          simp only [Except.ok.injEq, Prod.mk.injEq] at h
          exact h.1.symm
        · intro df' h
          simp at h
      | schema => exact ⟨⟨by simp, by simp⟩, by simp, by simp⟩
      | colNotFound => exact ⟨⟨by simp, by simp⟩, by simp, by simp⟩
  exact ⟨⟨hnum.1.1, hnum.1.2, hdt.1.1, hdt.1.2⟩, hnum.2.1, hnum.2.2,
    hdt.2.1, hdt.2.2⟩

def W5a : Table := ⟨[⟨"a", DType.utf8, [Value.str "1,234"]⟩]⟩

def W5aRes : Table := ⟨[⟨"a", DType.int64, [Value.int 1234]⟩]⟩

def W5b : Table := ⟨[⟨"a", DType.utf8, [Value.str "abc"]⟩]⟩

theorem try_to_conversion_contract_witness :
    Piper.try_to_numeric E0 W5a "a" NDType.int64 = Except.ok (W5aRes, true) ∧
    ReplacedWith W5a W5aRes "a" DType.int64 ∧
    Piper.try_to_numeric E0 W5b "a" NDType.int64 = Except.ok (W5b, false) ∧
    W5b = W5b :=
  ⟨by decide,
   (try_to_conversion_contract E0 W5a "a" NDType.int64).2.2.1 W5aRes (by decide),
   by decide,
   (try_to_conversion_contract E0 W5b "a" NDType.int64).2.1 W5b (by decide)⟩

/-- Evaluate `withColumnsList` when every targeted column converts
cell-wise without error. -/
theorem withColumnsList_eq_map (d : DType) (f : Value → Except ErrKind Value)
    (g : Column → List Value) {names : List String} {df : Table}
    (h : ∀ c ∈ df.columns, c.name ∈ names → exMap f c.values = Except.ok (g c)) :
    df.withColumnsList names d f =
      Except.ok ⟨df.columns.map (fun c =>
        if c.name ∈ names then ⟨c.name, d, g c⟩ else c)⟩ := by
  have hall : ∀ c ∈ df.columns,
      (if c.name ∈ names then
        match exMap f c.values with
        | Except.ok vs => Except.ok (⟨c.name, d, vs⟩ : Column)
        | Except.error e => Except.error e
      else Except.ok c) =
        Except.ok (if c.name ∈ names then (⟨c.name, d, g c⟩ : Column) else c) := by
    intro c hc
    by_cases hmem : c.name ∈ names
    · simp only [if_pos hmem, h c hc hmem]
    · simp only [if_neg hmem]
  rw [Table.withColumnsList, exMap_eq_map _ _ hall]

/-- A value a numeric column may hold. -/
def Value.numOrNull : Value → Bool
  | Value.null => true
  | Value.int _ => true
  | Value.float _ => true
  | _ => false

/-- The semicircle-to-degrees scaling on one cell, as the claim states
it: `v * 180 / 2^31`. -/
def scaleVal : Value → Value
  | Value.null => Value.null
  | Value.int n => Value.float ((n : ℚ) * 180 / 2 ^ 31)
  | Value.float q => Value.float (q * 180 / 2 ^ 31)
  | v => v

theorem exMap_mulDivVal {vs : List Value} (h : vs.all Value.numOrNull) :
    exMap mulDivVal vs = Except.ok (vs.map scaleVal) := by
  refine exMap_eq_map _ _ ?_
  intro v hv
  have := List.all_eq_true.mp h v hv
  cases v <;> simp_all [Value.numOrNull, mulDivVal, scaleVal]

/-- The `_lat` / `_lon` name test of `semicircle_to_degrees`. -/
def latlon (n : String) : Bool :=
  strContains n "_lat" || strContains n "_lon"

theorem mem_latlon_names {df : Table} {c : Column} (hc : c ∈ df.columns) :
    (c.name ∈ (df.columns.filter (fun x =>
      strContains x.name "_lat" || strContains x.name "_lon")).map Column.name)
      ↔ latlon c.name = true := by
  constructor
  · intro hmem
    obtain ⟨x, hx, hname⟩ := List.mem_map.mp hmem
    have := List.of_mem_filter hx
    rw [latlon, ← hname]
    exact this
  · intro hl
    exact List.mem_map_of_mem Column.name
      (List.mem_filter.mpr ⟨hc, hl⟩)

/-- C6: `semicircle_to_degrees` replaces, in every column whose name
contains `_lat` or `_lon` (holding numbers or nulls), each value `v`
by `v * 180 / 2^31` (as a 64-bit float), and leaves every other
column untouched. -/
theorem semicircle_to_degrees_spec (df : Table)
    (h : ∀ c ∈ df.columns, latlon c.name = true → c.values.all Value.numOrNull) :
    Piper.semicircle_to_degrees df =
      Except.ok ⟨df.columns.map (fun c =>
        if latlon c.name then ⟨c.name, DType.float64, c.values.map scaleVal⟩
        else c)⟩ := by
  have hcond : ∀ c ∈ df.columns,
      c.name ∈ (df.columns.filter (fun x =>
        strContains x.name "_lat" || strContains x.name "_lon")).map Column.name →
      exMap mulDivVal c.values = Except.ok (c.values.map scaleVal) := by
    intro c hc hmem
    exact exMap_mulDivVal (h c hc ((mem_latlon_names hc).mp hmem))
  rw [Piper.semicircle_to_degrees,
    withColumnsList_eq_map DType.float64 mulDivVal (fun c => c.values.map scaleVal) hcond]
  congr 2
  refine List.map_congr_left ?_
  intro c hc
  by_cases hl : latlon c.name = true
  · rw [if_pos ((mem_latlon_names hc).mpr hl), if_pos hl]
  · rw [if_neg (fun hmem => hl ((mem_latlon_names hc).mp hmem)),
      if_neg (by simp [hl])]

def W6 : Table :=
  ⟨[⟨"position_lat", DType.int64, [Value.int 2147483648]⟩,
    ⟨"speed", DType.int64, [Value.int 5]⟩]⟩

theorem semicircle_to_degrees_spec_witness :
    (∀ c ∈ W6.columns, latlon c.name = true → c.values.all Value.numOrNull) ∧
      Piper.semicircle_to_degrees W6 =
        Except.ok ⟨[⟨"position_lat", DType.float64, [Value.float 180]⟩,
          ⟨"speed", DType.int64, [Value.int 5]⟩]⟩ :=
  ⟨by decide, by
    rw [semicircle_to_degrees_spec W6 (by decide)]
    have h1 : latlon "position_lat" = true := by decide
    have h2 : latlon "speed" = false := by decide
    simp only [W6, List.map_cons, List.map_nil, h1, h2, if_true, if_false,
      Bool.false_eq_true, scaleVal]
    norm_num⟩

theorem any_map_general {α β : Type} (f : α → β) (p : β → Bool) :
    ∀ (l : List α), (l.map f).any p = l.any (fun a => p (f a)) := by
  intro l
  induction l with
  | nil => rfl
  | cons a l ih => simp [ih]

/-- The kept row indices of `drop_rows_that_are_all_null`. -/
def keepIdx (df : Table) : List Nat :=
  (List.range df.height).filter (fun i => !(df.rowAllNull i))

theorem drop_rows_columns (df : Table) :
    (Piper.drop_rows_that_are_all_null df).columns =
      df.columns.map (fun c =>
        ⟨c.name, c.dtype, (keepIdx df).map (fun i => c.values.getD i Value.null)⟩) := rfl

theorem drop_rows_rowsList_aux (df : Table) :
    (Piper.drop_rows_that_are_all_null df).rowsList = (keepIdx df).map df.row := by
  cases hcols : df.columns with
  | nil =>
    have h0 : df.height = 0 := by rw [Table.height, hcols]
    have hres : (Piper.drop_rows_that_are_all_null df).columns = [] := by
      rw [drop_rows_columns, hcols]; rfl
    rw [Table.rowsList, Table.height, hres]
    rw [keepIdx, h0]
    rfl
  | cons c cs =>
    have hres := drop_rows_columns df
    rw [hcols] at hres
    have hh : (Piper.drop_rows_that_are_all_null df).height = (keepIdx df).length := by
      rw [Table.height, hres]
      simp
    rw [Table.rowsList, hh]
    refine List.ext_getElem? ?_
    intro j
    by_cases hj : j < (keepIdx df).length
    · rw [List.getElem?_map, List.getElem?_range hj, Option.map_some',
        List.getElem?_map, List.getElem?_eq_getElem hj, Option.map_some']
      congr 1
      rw [Table.row, drop_rows_columns, List.map_map, Table.row]
      refine List.map_congr_left ?_
      intro x _
      simp only [Function.comp_apply]
      rw [List.getD_eq_getElem?_getD, List.getElem?_map, List.getElem?_eq_getElem hj,
        Option.map_some', Option.getD_some, List.getD_eq_getElem?_getD]
    · rw [List.getElem?_map, List.getElem?_map]
      have h₁ : (List.range (keepIdx df).length)[j]? = none := by
        rw [List.getElem?_eq_none]
        simpa using Nat.le_of_not_lt hj
      have h₂ : (keepIdx df)[j]? = none := by
        rw [List.getElem?_eq_none]
        exact Nat.le_of_not_lt hj
      rw [h₁, h₂]
      rfl

/-- C7: `drop_rows_that_are_all_null` removes exactly the rows whose
values are all null: columns (names and dtypes, in order) are
preserved, the row count never increases, and the surviving rows are
exactly the rows containing at least one non-null value, in their
original relative order. -/
theorem drop_rows_that_are_all_null_spec (df : Table) :
    (Piper.drop_rows_that_are_all_null df).columns.map Column.name =
        df.columns.map Column.name ∧
    (Piper.drop_rows_that_are_all_null df).columns.map Column.dtype =
        df.columns.map Column.dtype ∧
    (Piper.drop_rows_that_are_all_null df).height ≤ df.height ∧
    (Piper.drop_rows_that_are_all_null df).rowsList =
      df.rowsList.filter (fun r => r.any (fun v => !v.isNull)) := by
  refine ⟨?_, ?_, ?_, ?_⟩
  · rw [drop_rows_columns, List.map_map]
    rfl
  · rw [drop_rows_columns, List.map_map]
    rfl
  · cases hcols : df.columns with
    | nil =>
      have hres : (Piper.drop_rows_that_are_all_null df).columns = [] := by
        rw [drop_rows_columns, hcols]; rfl
      rw [Table.height, hres]
      exact Nat.zero_le _
    | cons c cs =>
      have hres := drop_rows_columns df
      rw [hcols] at hres
      have hh : (Piper.drop_rows_that_are_all_null df).height = (keepIdx df).length := by
        rw [Table.height, hres]
        simp
      rw [hh, keepIdx]
      calc ((List.range df.height).filter (fun i => !(df.rowAllNull i))).length
          ≤ (List.range df.height).length := List.length_filter_le _ _
        _ = df.height := List.length_range df.height
  · rw [drop_rows_rowsList_aux, Table.rowsList, List.filter_map, keepIdx]
    congr 1
    refine List.filter_congr ?_
    intro i _
    simp only [Function.comp_apply]
    rw [Table.row, Table.rowAllNull, List.all_eq_not_any_not]
    simp only [Bool.not_not]
    rw [any_map_general]

/-- Looking a column's own name up in a duplicate-free column list
finds that column. -/
theorem find?_name_self :
    ∀ {cols : List Column}, (cols.map Column.name).Nodup →
      ∀ {c : Column}, c ∈ cols →
        cols.find? (fun x => x.name = c.name) = some c := by
  intro cols
  induction cols with
  | nil => intro _ c hc; cases hc
  | cons d rest ih =>
    intro hN c hc
    rw [List.map_cons, List.nodup_cons] at hN
    rcases List.mem_cons.mp hc with rfl | hmem
    · simp [List.find?_cons]
    · have hne : ¬(d.name = c.name) := by
        intro heq
        exact hN.1 (heq ▸ List.mem_map_of_mem Column.name hmem)
      rw [List.find?_cons]
      have hd : decide (d.name = c.name) = false := by simp [hne]
      rw [hd]
      exact ih hN.2 hmem

/-- Selecting (by name) a duplicate-free sub-list of a table's columns
returns exactly those columns. -/
theorem selectNames_map_name {df : Table} (hN : df.NamesNodup) :
    ∀ (l : List Column), (∀ c ∈ l, c ∈ df.columns) →
      (l.map Column.name).filterMap
        (fun n => df.columns.find? (fun c => c.name = n)) = l := by
  intro l
  induction l with
  | nil => intro _; rfl
  | cons c rest ih =>
    intro hsub
    rw [List.map_cons, List.filterMap_cons]
    rw [find?_name_self hN (hsub c (by simp))]
    rw [ih (fun x hx => hsub x (by simp [hx]))]

/-- C8 (amended): `drop_columns_that_are_all_null` removes exactly the
columns whose null count equals the row count, preserving the order of
the surviving columns, and preserves the row count whenever at least
one column survives.  (When every column is all-null the selection of
zero columns yields a table of height 0, so the row count is not
preserved in general.) -/
theorem drop_columns_that_are_all_null_spec (df : Table) (hN : df.NamesNodup) :
    (Piper.drop_columns_that_are_all_null df).columns =
        df.columns.filter (fun c => !(c.nullCount == df.height)) ∧
    ((Piper.drop_columns_that_are_all_null df).columns ≠ [] → df.Uniform →
      (Piper.drop_columns_that_are_all_null df).height = df.height) := by
  have hcols : (Piper.drop_columns_that_are_all_null df).columns =
      df.columns.filter (fun c => !(c.nullCount == df.height)) := by
    rw [Piper.drop_columns_that_are_all_null, Table.selectNames]
    exact selectNames_map_name hN _
      (fun c hc => List.mem_of_mem_filter hc)
  refine ⟨hcols, ?_⟩
  intro hne hU
  cases hres : (Piper.drop_columns_that_are_all_null df).columns with
  | nil => exact absurd hres hne
  | cons c0 rest =>
    have hc0 : c0 ∈ df.columns := by
      have : c0 ∈ df.columns.filter (fun c => !(c.nullCount == df.height)) := by
        rw [← hcols, hres]; simp
      exact List.mem_of_mem_filter this
    rw [Table.height, hres]
    exact hU c0 hc0

/-- C8 counterexample: on a one-row table whose single column is all
null, the drop removes every column and the selection of zero columns
has height 0, so the row count drops from 1 to 0. -/
def T8 : Table := ⟨[⟨"a", DType.utf8, [Value.null]⟩]⟩

theorem drop_columns_row_count_ce :
    T8.height = 1 ∧ (Piper.drop_columns_that_are_all_null T8).height = 0 := by
  decide

def W8 : Table :=
  ⟨[⟨"a", DType.int64, [Value.int 1, Value.null]⟩,
    ⟨"b", DType.utf8, [Value.null, Value.null]⟩]⟩

theorem drop_columns_that_are_all_null_spec_witness :
    W8.NamesNodup ∧
    (Piper.drop_columns_that_are_all_null W8).columns =
      W8.columns.filter (fun c => !(c.nullCount == W8.height)) ∧
    (Piper.drop_columns_that_are_all_null W8).height = W8.height :=
  ⟨by decide, (drop_columns_that_are_all_null_spec W8 (by decide)).1,
    (drop_columns_that_are_all_null_spec W8 (by decide)).2 (by decide) (by decide)⟩

/-- One concrete engine sort satisfying the documented contract
(`SortPrim`), used to evaluate the development on explicit inputs: a
structural insertion sort on the key.  It is sorted and a permutation,
as every conforming engine sort is, but it happens to order equal keys
in the reverse of their input order — which the contract permits. -/
def insertPair (p : String × Nat) : List (String × Nat) → List (String × Nat)
  | [] => [p]
  | q :: rest => if p.2 < q.2 then p :: q :: rest else q :: insertPair p rest

def insertionSortPairs : List (String × Nat) → List (String × Nat)
  | [] => []
  | p :: rest => insertPair p (insertionSortPairs rest)

theorem insertPair_perm (p : String × Nat) :
    ∀ (l : List (String × Nat)), (insertPair p l).Perm (p :: l) := by
  intro l
  induction l with
  | nil => exact List.Perm.refl _
  | cons q rest ih =>
    rw [insertPair]
    by_cases h : p.2 < q.2
    · rw [if_pos h]
    · rw [if_neg h]
      exact List.Perm.trans (List.Perm.cons q ih) (List.Perm.swap p q rest)

theorem insertionSortPairs_perm :
    ∀ (l : List (String × Nat)), (insertionSortPairs l).Perm l := by
  intro l
  induction l with
  | nil => exact List.Perm.refl _
  | cons p rest ih =>
    rw [insertionSortPairs]
    exact List.Perm.trans (insertPair_perm p (insertionSortPairs rest))
      (List.Perm.cons p ih)

theorem insertPair_sorted {p : String × Nat} :
    ∀ {l : List (String × Nat)}, l.Pairwise (fun a b => a.2 ≤ b.2) →
      (insertPair p l).Pairwise (fun a b => a.2 ≤ b.2) := by
  intro l
  induction l with
  | nil =>
    intro _
    exact List.Pairwise.cons (by simp) List.Pairwise.nil
  | cons q rest ih =>
    intro h
    rw [List.pairwise_cons] at h
    rw [insertPair]
    by_cases hpq : p.2 < q.2
    · rw [if_pos hpq]
      refine List.Pairwise.cons ?_ (List.Pairwise.cons h.1 h.2)
      intro b hb
      rcases List.mem_cons.mp hb with rfl | hb'
      · exact Nat.le_of_lt hpq
      · exact Nat.le_trans (Nat.le_of_lt hpq) (h.1 b hb')
    · rw [if_neg hpq]
      refine List.Pairwise.cons ?_ (ih h.2)
      intro b hb
      have hmem := (insertPair_perm p rest).mem_iff.mp hb
      rcases List.mem_cons.mp hmem with rfl | hb'
      · exact Nat.le_of_not_lt hpq
      · exact h.1 b hb'

theorem insertionSortPairs_sorted :
    ∀ (l : List (String × Nat)),
      (insertionSortPairs l).Pairwise (fun a b => a.2 ≤ b.2) := by
  intro l
  induction l with
  | nil => exact List.Pairwise.nil
  | cons p rest ih => exact insertPair_sorted ih

def S0 : SortPrim := ⟨insertionSortPairs, insertionSortPairs_perm, insertionSortPairs_sorted⟩

/-- A junk column used only as the never-hit default of a lookup. -/
def junkColumn : Column := ⟨"", DType.utf8, []⟩

theorem filterMap_map_general {α β γ : Type} (g : α → β) (f : β → Option γ) :
    ∀ (l : List α), (l.map g).filterMap f = l.filterMap (fun a => f (g a)) := by
  intro l
  induction l with
  | nil => rfl
  | cons a t ih =>
    rw [List.map_cons, List.filterMap_cons, List.filterMap_cons, ih]

theorem filterMap_eq_map_getD {α β : Type} (f : α → Option β) (d : β) :
    ∀ {l : List α}, (∀ a ∈ l, (f a).isSome) →
      l.filterMap f = l.map (fun a => (f a).getD d) := by
  intro l
  induction l with
  | nil => intro _; rfl
  | cons a t ih =>
    intro h
    obtain ⟨b, hb⟩ := Option.isSome_iff_exists.mp (h a (by simp))
    rw [List.filterMap_cons, List.map_cons, hb]
    show b :: List.filterMap f t = b :: t.map (fun a => (f a).getD d)
    rw [ih (fun x hx => h x (by simp [hx]))]

/-- Every sorted `(name, count)` row looks up (under unique names) to
a column of that name and that null count. -/
theorem sort_columns_lookup (S : SortPrim) (df : Table) (hN : df.NamesNodup) :
    ∀ p ∈ S.sort (df.columns.map (fun c => (c.name, c.nullCount))),
      ∃ c ∈ df.columns,
        df.columns.find? (fun x => x.name = p.1) = some c ∧ c.nullCount = p.2 := by
  intro p hp
  have hp' : p ∈ df.columns.map (fun c => (c.name, c.nullCount)) :=
    (S.sort_perm _).mem_iff.mp hp
  obtain ⟨c, hc, rfl⟩ := List.mem_map.mp hp'
  exact ⟨c, hc, find?_name_self hN hc, rfl⟩

/-- The columns of the sorted table are the looked-up columns of the
sorted `(name, count)` rows, in order. -/
theorem sort_columns_cols_eq (S : SortPrim) (df : Table) (hN : df.NamesNodup) :
    (PolarsPiper.sort_columns_by_null_count S df).columns =
      (S.sort (df.columns.map (fun c => (c.name, c.nullCount)))).map
        (fun p => (df.columns.find? (fun x => x.name = p.1)).getD junkColumn) := by
  show ((S.sort (df.columns.map (fun c => (c.name, c.nullCount)))).map
      Prod.fst).filterMap (fun n => df.columns.find? (fun c => c.name = n)) = _
  rw [filterMap_map_general]
  refine filterMap_eq_map_getD _ junkColumn ?_
  intro p hp
  obtain ⟨c, hc, hfind, -⟩ := sort_columns_lookup S df hN p hp
  rw [hfind]
  rfl

theorem sort_columns_perm (S : SortPrim) (df : Table) (hN : df.NamesNodup) :
    (PolarsPiper.sort_columns_by_null_count S df).columns.Perm df.columns := by
  rw [sort_columns_cols_eq S df hN]
  have h2 : (df.columns.map (fun c => (c.name, c.nullCount))).map
      (fun p => (df.columns.find? (fun x => x.name = p.1)).getD junkColumn) =
      df.columns := by
    rw [List.map_map]
    have hpt : ∀ c ∈ df.columns,
        ((fun p : String × Nat =>
            (df.columns.find? (fun x => x.name = p.1)).getD junkColumn) ∘
          (fun c => (c.name, c.nullCount))) c = c := by
      intro c hc
      simp only [Function.comp_apply]
      rw [find?_name_self hN hc]
      rfl
    rw [List.map_congr_left hpt]
    simp
  have h3 : ((df.columns.map (fun c => (c.name, c.nullCount))).map
      (fun p => (df.columns.find? (fun x => x.name = p.1)).getD junkColumn)).Perm
      df.columns := by rw [h2]
  exact (List.Perm.map _ (S.sort_perm _)).trans h3

theorem sort_columns_sorted (S : SortPrim) (df : Table) (hN : df.NamesNodup) :
    (PolarsPiper.sort_columns_by_null_count S df).columns.Pairwise
      (fun a b => a.nullCount ≤ b.nullCount) := by
  rw [sort_columns_cols_eq S df hN, List.pairwise_map]
  refine (S.sort_sorted _).imp_of_mem ?_
  intro p q hp hq hle
  obtain ⟨c, hc, hfind, hcnt⟩ := sort_columns_lookup S df hN p hp
  obtain ⟨d, hd, hfind', hcnt'⟩ := sort_columns_lookup S df hN q hq
  rw [hfind, hfind']
  show c.nullCount ≤ d.nullCount
  rw [hcnt, hcnt']
  exact hle

/-- C2 (amended): for every engine sort satisfying the documented
contract, `sort_columns_by_null_count` returns a table with exactly
the same columns and data, reordered ascending by per-column null
count; the relative order of columns with equal null counts is
unspecified (the sort key is the null count alone — the column name is
not a tie-break, and the engine sort is not promised to be stable). -/
theorem sort_columns_by_null_count_spec (S : SortPrim) (df : Table)
    (hN : df.NamesNodup) :
    ((PolarsPiper.sort_columns_by_null_count S df).columns).Perm df.columns ∧
    ((PolarsPiper.sort_columns_by_null_count S df).columns).Pairwise
      (fun a b => a.nullCount ≤ b.nullCount) :=
  ⟨sort_columns_perm S df hN, sort_columns_sorted S df hN⟩

/-- C2 counterexample: two columns named `a` then `b`, both with zero
nulls.  Under the conforming engine sort `S0` the output order is
`b, a`, not the claimed name-ascending `a, b`: the code sorts by the
null count alone, so no conforming engine guarantees the claimed
name tie-break. -/
def T2 : Table :=
  ⟨[⟨"a", DType.int64, [Value.int 1]⟩, ⟨"b", DType.int64, [Value.int 2]⟩]⟩

theorem sort_columns_name_tiebreak_ce :
    (PolarsPiper.sort_columns_by_null_count S0 T2).columns.map Column.name =
      ["b", "a"] ∧
    (["b", "a"] : List String) ≠ ["a", "b"] := by
  decide

def W2 : Table :=
  ⟨[⟨"a", DType.int64, [Value.int 1, Value.int 2, Value.int 3]⟩,
    ⟨"b", DType.int64, [Value.null, Value.null, Value.null]⟩,
    ⟨"c", DType.int64, [Value.int 1, Value.null, Value.int 2]⟩]⟩

theorem sort_columns_by_null_count_spec_witness :
    W2.NamesNodup ∧
    ((PolarsPiper.sort_columns_by_null_count S0 W2).columns).Perm W2.columns ∧
    ((PolarsPiper.sort_columns_by_null_count S0 W2).columns).Pairwise
      (fun a b => a.nullCount ≤ b.nullCount) ∧
    (PolarsPiper.sort_columns_by_null_count S0 W2).columns.map Column.name =
      ["a", "c", "b"] :=
  ⟨by decide, (sort_columns_by_null_count_spec S0 W2 (by decide)).1,
    (sort_columns_by_null_count_spec S0 W2 (by decide)).2, by decide⟩

/-- Two tables with the same column names and the same per-column
value-list lengths (hence the same height). -/
def SameShape (df df' : Table) : Prop :=
  df'.columns.map Column.name = df.columns.map Column.name ∧
  df'.columns.map (fun c => c.values.length) = df.columns.map (fun c => c.values.length)

theorem sameShape_refl (df : Table) : SameShape df df := ⟨rfl, rfl⟩

theorem sameShape_trans {a b c : Table} (h₁ : SameShape a b) (h₂ : SameShape b c) :
    SameShape a c := ⟨h₂.1.trans h₁.1, h₂.2.trans h₁.2⟩

theorem sameShape_height {df df' : Table} (h : SameShape df df') :
    df'.height = df.height := by
  rcases h with ⟨hn, hl⟩
  cases hc : df.columns with
  | nil =>
    cases hc' : df'.columns with
    | nil => rw [Table.height, Table.height, hc, hc']
    | cons d ds => rw [hc, hc'] at hn; simp at hn
  | cons c cs =>
    cases hc' : df'.columns with
    | nil => rw [hc, hc'] at hn; simp at hn
    | cons d ds =>
      rw [Table.height, Table.height, hc, hc']
      rw [hc, hc'] at hl
      simp only [List.map_cons, List.cons.injEq] at hl
      exact hl.1

theorem forall₂_map_eq {α β γ : Type} {R : α → β → Prop} (fa : α → γ) (fb : β → γ)
    (h : ∀ a b, R a b → fb b = fa a) :
    ∀ {l : List α} {l' : List β}, List.Forall₂ R l l' → l'.map fb = l.map fa := by
  intro l l' hf
  induction hf with
  | nil => rfl
  | cons hr _ ih => simp [h _ _ hr, ih]

theorem withColumn_ok_sameShape {df df' : Table} {n : String} {d : DType}
    {f : Value → Except ErrKind Value}
    (h : Table.withColumn df n d f = Except.ok df') : SameShape df df' := by
  rw [Table.withColumn] at h
  by_cases hany : df.columns.any (fun c => c.name = n) = true
  · rw [if_pos hany] at h
    cases hmap : exMap (fun c =>
        if c.name = n then
          match exMap f c.values with
          | Except.ok vs => Except.ok (⟨c.name, d, vs⟩ : Column)
          | Except.error e => Except.error e
        else Except.ok c) df.columns with
    | error e => rw [hmap] at h; cases h
    | ok cols =>
      rw [hmap] at h
      cases h
      have hf := exMap_ok_forall₂ hmap
      constructor
      · refine forall₂_map_eq Column.name Column.name ?_ hf
        intro c c' hcc
        by_cases hn : c.name = n
        · rw [if_pos hn] at hcc
          cases hvs : exMap f c.values with
          | error e => rw [hvs] at hcc; cases hcc
          | ok vs => rw [hvs] at hcc; cases hcc; rfl
        · rw [if_neg hn] at hcc; cases hcc; rfl
      · refine forall₂_map_eq _ _ ?_ hf
        intro c c' hcc
        by_cases hn : c.name = n
        · rw [if_pos hn] at hcc
          cases hvs : exMap f c.values with
          | error e => rw [hvs] at hcc; cases hcc
          | ok vs =>
            rw [hvs] at hcc
            cases hcc
            exact (exMap_ok_forall₂ hvs).length_eq.symm
        · rw [if_neg hn] at hcc; cases hcc; rfl
  · rw [if_neg hany] at h; cases h

theorem withColumnsList_ok_sameShape {df df' : Table} {names : List String}
    {d : DType} {f : Value → Except ErrKind Value}
    (h : Table.withColumnsList df names d f = Except.ok df') : SameShape df df' := by
  rw [Table.withColumnsList] at h
  cases hmap : exMap (fun c =>
      if c.name ∈ names then
        match exMap f c.values with
        | Except.ok vs => Except.ok (⟨c.name, d, vs⟩ : Column)
        | Except.error e => Except.error e
      else Except.ok c) df.columns with
  | error e => rw [hmap] at h; cases h
  | ok cols =>
    rw [hmap] at h
    cases h
    have hf := exMap_ok_forall₂ hmap
    constructor
    · refine forall₂_map_eq Column.name Column.name ?_ hf
      intro c c' hcc
      by_cases hn : c.name ∈ names
      · rw [if_pos hn] at hcc
        cases hvs : exMap f c.values with
        | error e => rw [hvs] at hcc; cases hcc
        | ok vs => rw [hvs] at hcc; cases hcc; rfl
      · rw [if_neg hn] at hcc; cases hcc; rfl
    · refine forall₂_map_eq _ _ ?_ hf
      intro c c' hcc
      by_cases hn : c.name ∈ names
      · rw [if_pos hn] at hcc
        cases hvs : exMap f c.values with
        | error e => rw [hvs] at hcc; cases hcc
        | ok vs =>
          rw [hvs] at hcc
          cases hcc
          exact (exMap_ok_forall₂ hvs).length_eq.symm
      · rw [if_neg hn] at hcc; cases hcc; rfl

theorem tryFmts_ok_sameShape (col : String) :
    ∀ (fmts : List String) (df df' : Table) (b : Bool),
      Piper.tryFmts E df col fmts = Except.ok (df', b) → SameShape df df' := by
  intro fmts
  induction fmts with
  | nil =>
    intro df df' b h
    simp only [Piper.tryFmts, Except.ok.injEq, Prod.mk.injEq] at h
    rw [← h.1]
    exact sameShape_refl _
  | cons fmt rest ih =>
    intro df df' b h
    rw [Piper.tryFmts] at h
    cases hw : df.withColumn col DType.datetime (toDatetimeVal E fmt) with
    | ok t =>
      rw [hw] at h
      simp only [Except.ok.injEq, Prod.mk.injEq] at h
      rw [← h.1]
      exact withColumn_ok_sameShape hw
    | error e =>
      rw [hw] at h
      cases e with
      | invalidOp => exact ih df df' b h
      | compute => exact ih df df' b h
      | schema => cases h
      | colNotFound => cases h

theorem try_to_numeric_ok_sameShape {df df' : Table} {col : String}
    {nd : NDType} {b : Bool}
    (h : Piper.try_to_numeric E df col nd = Except.ok (df', b)) : SameShape df df' := by
  rw [Piper.try_to_numeric] at h
  cases hw : df.withColumn col nd.toDType (replCastVal E nd) with
  | ok t =>
    rw [hw] at h
    simp only [Except.ok.injEq, Prod.mk.injEq] at h
    rw [← h.1]
    exact withColumn_ok_sameShape hw
  | error e =>
    rw [hw] at h
    cases e with
    | invalidOp =>
      simp only [Except.ok.injEq, Prod.mk.injEq] at h
      rw [← h.1]
      exact sameShape_refl _
    | compute =>
      simp only [Except.ok.injEq, Prod.mk.injEq] at h
      rw [← h.1]
      exact sameShape_refl _
    | schema => cases h
    | colNotFound => cases h

theorem promoteStep_ok_sameShape {df df' : Table} {n : String}
    (h : Piper.promoteStep E df n = Except.ok df') : SameShape df df' := by
  rw [Piper.promoteStep] at h
  split at h
  · cases h
    exact sameShape_refl _
  · split at h
    · cases h
    · rename_i df1 heq
      cases h
      rw [Piper.try_to_datetime] at heq
      exact tryFmts_ok_sameShape E n dtFormats df df' true heq
    · rename_i df1 heq1
      rw [Piper.try_to_datetime] at heq1
      have h₁ := tryFmts_ok_sameShape E n dtFormats df df1 false heq1
      split at h
      · cases h
      · rename_i df2 heq2
        cases h
        exact sameShape_trans h₁ (try_to_numeric_ok_sameShape E heq2)
      · rename_i df2 heq2
        have h₂ := try_to_numeric_ok_sameShape E heq2
        split at h
        · cases h
        · rename_i df3 b3 heq3
          cases h
          exact sameShape_trans h₁
            (sameShape_trans h₂ (try_to_numeric_ok_sameShape E heq3))

theorem floatStep_ok_sameShape {df df' : Table} {n : String}
    (h : Piper.floatStep E df n = Except.ok df') : SameShape df df' := by
  rw [Piper.floatStep] at h
  cases hw : df.withColumn n DType.float64 (castFloatVal E) with
  | ok t =>
    rw [hw] at h
    cases h
    exact withColumn_ok_sameShape hw
  | error e =>
    rw [hw] at h
    cases e with
    | invalidOp => cases h; exact sameShape_refl _
    | compute => cases h
    | schema => cases h
    | colNotFound => cases h

theorem runSteps_ok_sameShape (step : Table → String → Except ErrKind Table)
    (hstep : ∀ df n df', step df n = Except.ok df' → SameShape df df') :
    ∀ (names : List String) (df df' : Table),
      runSteps step names df = Except.ok df' → SameShape df df' := by
  intro names
  induction names with
  | nil =>
    intro df df' h
    cases h
    exact sameShape_refl _
  | cons n rest ih =>
    intro df df' h
    rw [runSteps] at h
    cases hs : step df n with
    | error e => rw [hs] at h; cases h
    | ok df1 =>
      rw [hs] at h
      exact sameShape_trans (hstep df n df1 hs) (ih df1 df' h)

/-- C9 (amended): the six non-drop transforms — `semicircle_to_degrees`,
`convert_times_to_datetime`, `cast_time_in_zone_string_to_list_of_float`,
`utf8_promotion`, `try_convert_dtypes_to_float_if_possible` and
`sort_columns_by_null_count` — preserve the row count exactly (whenever
they return a table).  `drop_columns_that_are_all_null`, although not a
row-filtering transform, does not: on an all-null table it removes
every column and the resulting zero-column table has height 0. -/
theorem transforms_preserve_row_count (df : Table) :
    (∀ df', Piper.semicircle_to_degrees df = Except.ok df' →
      df'.height = df.height) ∧
    (∀ df' cols, Piper.convert_times_to_datetime E df cols = Except.ok df' →
      df'.height = df.height) ∧
    (∀ df' cols, Piper.cast_time_in_zone_string_to_list_of_float E df cols =
        Except.ok df' → df'.height = df.height) ∧
    (∀ df', Piper.utf8_promotion E df = Except.ok df' → df'.height = df.height) ∧
    (∀ df', Piper.try_convert_dtypes_to_float_if_possible E df = Except.ok df' →
      df'.height = df.height) ∧
    (∀ S : SortPrim, df.NamesNodup → df.Uniform →
      (PolarsPiper.sort_columns_by_null_count S df).height = df.height) := by
  refine ⟨?_, ?_, ?_, ?_, ?_, ?_⟩
  · intro df' h
    exact sameShape_height (withColumnsList_ok_sameShape h)
  · intro df' cols h
    exact sameShape_height (withColumnsList_ok_sameShape h)
  · intro df' cols h
    exact sameShape_height (withColumnsList_ok_sameShape h)
  · intro df' h
    exact sameShape_height (runSteps_ok_sameShape (Piper.promoteStep E)
      (fun a n b hb => promoteStep_ok_sameShape E hb) _ df df' h)
  · intro df' h
    exact sameShape_height (runSteps_ok_sameShape (Piper.floatStep E)
      (fun a n b hb => floatStep_ok_sameShape E hb) _ df df' h)
  · intro S hN hU
    have hperm := sort_columns_perm S df hN
    cases hc : df.columns with
    | nil =>
      have hnil : (PolarsPiper.sort_columns_by_null_count S df).columns = [] := by
        rw [hc] at hperm
        exact List.Perm.eq_nil hperm
      rw [Table.height, Table.height, hnil, hc]
    | cons c cs =>
      cases hres : (PolarsPiper.sort_columns_by_null_count S df).columns with
      | nil =>
        rw [hres, hc] at hperm
        exact absurd hperm.symm.eq_nil (by simp)
      | cons d ds =>
        have hd : d ∈ df.columns := hperm.mem_iff.mp (by rw [hres]; simp)
        have h1 : (PolarsPiper.sort_columns_by_null_count S df).height =
            d.values.length := by
          rw [Table.height, hres]
        rw [h1]
        exact hU d hd

def T9 : Table := ⟨[⟨"x", DType.int64, [Value.null, Value.null]⟩]⟩

/-- C9 counterexample: `drop_columns_that_are_all_null` is a transform
other than `drop_rows_that_are_all_null`, yet on a 2-row all-null
table it returns a table of height 0. -/
theorem transforms_row_count_ce :
    (Piper.drop_columns_that_are_all_null T9).height ≠ T9.height := by decide

def W9 : Table :=
  ⟨[⟨"s", DType.utf8, [Value.str "x", Value.null]⟩,
    ⟨"k", DType.int64, [Value.null, Value.null]⟩]⟩

def W9f : Table :=
  ⟨[⟨"s", DType.utf8, [Value.str "x", Value.null]⟩,
    ⟨"k", DType.float64, [Value.null, Value.null]⟩]⟩

theorem transforms_preserve_row_count_witness :
    Piper.utf8_promotion E0 W9 = Except.ok W9 ∧
    Piper.try_convert_dtypes_to_float_if_possible E0 W9 = Except.ok W9f ∧
    W9f.height = W9.height ∧
    (PolarsPiper.sort_columns_by_null_count S0 W9).height = W9.height :=
  ⟨by decide, by decide,
   (transforms_preserve_row_count E0 W9).2.2.2.2.1 W9f (by decide),
   (transforms_preserve_row_count E0 W9).2.2.2.2.2 S0 (by decide) (by decide)⟩

def T1 : Table := ⟨[⟨"a", DType.utf8, [Value.str "x"]⟩]⟩

/-- C1 (code bug): the eager and lazy variants diverge.  On a lazy
frame `with_columns` only records the expression and cannot raise, so
the lazy `try_to_datetime` reports success with the first format
unconditionally (its `except` clauses are dead) and the lazy
`try_to_numeric` likewise always reports success; the eager variant on
the same one-column string table `["x"]` reports failure for both and
leaves the table unchanged, while realizing the lazy plan fails with
the deferred parse error instead of producing a table at all. -/
theorem lazy_eager_divergence :
    Piper.utf8_promotion E0 T1 = Except.ok T1 ∧
    PolarsPiper.utf8_promotion (⟨T1, []⟩ : LazyFrame) =
      (⟨T1, [LOp.dtFmt "a" fmtA]⟩ : LazyFrame) ∧
    PolarsPiper.try_to_datetime (⟨T1, []⟩ : LazyFrame) "a" =
      ((⟨T1, [LOp.dtFmt "a" fmtA]⟩ : LazyFrame), true) ∧
    Piper.try_to_datetime E0 T1 "a" = Except.ok (T1, false) ∧
    PolarsPiper.try_to_numeric (⟨T1, []⟩ : LazyFrame) "a" NDType.int64 =
      ((⟨T1, [LOp.replCast "a" NDType.int64]⟩ : LazyFrame), true) ∧
    Piper.try_to_numeric E0 T1 "a" NDType.int64 = Except.ok (T1, false) ∧
    LazyFrame.collect E0 (PolarsPiper.utf8_promotion ⟨T1, []⟩) =
      Except.error ErrKind.compute := by
  decide

/-- C10: passing `cols = []` to the time-conversion transforms behaves
exactly like omitting the argument: Python's `cols or defaults`
replaces the falsy empty list by the default column list. -/
theorem empty_cols_means_defaults (df : Table) (lf : LazyFrame) :
    Piper.convert_times_to_datetime E df (some []) =
      Piper.convert_times_to_datetime E df none ∧
    Piper.cast_time_in_zone_string_to_list_of_float E df (some []) =
      Piper.cast_time_in_zone_string_to_list_of_float E df none ∧
    PolarsPiper.convert_times_to_datetime lf (some []) =
      PolarsPiper.convert_times_to_datetime lf none :=
  ⟨rfl, rfl, rfl⟩

end PiperSpec
